import Mathlib

/-!
Verification of the GF(p¹²) arithmetic layer (`gfp12.go`) of the bn256
pairing library.

The file embeds the degree-12 extension field layer shallowly.  The lower
towers (the base field GF(p), the quadratic extension GF(p²) and the sextic
extension GF(p⁶)) are external collaborators of this layer; following the
spec they are modelled generically: GF(p²) is an arbitrary commutative
coefficient ring `K` carrying a distinguished sextic non-residue `ξ`,
GF(p⁶) is the cubic tower `K[v]/(v³ − ξ)` stored as three coordinates, and
GF(p¹²) is the quadratic tower `gfP6[ω]/(ω² − τ)` with `τ = v`, stored as
two `gfP6` coordinates.  All operations of `gfp12.go` are translated
directly from the source; the handful of external GF(p⁶) operations the
source calls (`Add`, `Sub`, `Neg`, `Mul`, `MulTau`, `MulScalar`, `Square`,
`Invert`, the Frobenius family and the twist constants) are modelled from
the spec, the ones without a stated formula being taken as parameters.
-/

set_option maxHeartbeats 1600000

/-- Modelled from the spec: the external quadratic-extension collaborator
GF(p²) is modelled as an arbitrary commutative ring of coefficients; the
spec (§6) only requires ring arithmetic, squaring and multiplication by the
sextic non-residue ξ, so the non-residue is the single distinguished
constant we keep. -/
class TowerParams (K : Type) where
  xi : K

/-- The sextic non-residue ξ of the coefficient ring. -/
def xiK (K : Type) [TowerParams K] : K := TowerParams.xi

/-- Modelled from the spec: an element of the external sextic extension
GF(p⁶) = GF(p²)[v]/(v³ − ξ), stored as the three GF(p²) coordinates of
`x·v² + y·v + z` (the decomposition the spec's §4.5 cyclotomic squaring
relies on). -/
@[ext]
structure gfP6 (K : Type) where
  x : K
  y : K
  z : K
deriving DecidableEq

/-- Modelled from the spec: a GF(p¹²) element, a pair of GF(p⁶) elements
representing `x·ω + y` with `ω² = τ` (spec §3). -/
@[ext]
structure gfP12 (K : Type) where
  x : gfP6 K
  y : gfP6 K
deriving DecidableEq

variable {K : Type} [CommRing K] [TowerParams K]

/-- Modelled from the spec: componentwise GF(p⁶) addition. -/
def gfP6.Add (a b : gfP6 K) : gfP6 K := ⟨a.x + b.x, a.y + b.y, a.z + b.z⟩

/-- Modelled from the spec: componentwise GF(p⁶) subtraction. -/
def gfP6.Sub (a b : gfP6 K) : gfP6 K := ⟨a.x - b.x, a.y - b.y, a.z - b.z⟩

/-- Modelled from the spec: componentwise GF(p⁶) negation. -/
def gfP6.Neg (a : gfP6 K) : gfP6 K := ⟨-a.x, -a.y, -a.z⟩

/-- Modelled from the spec: GF(p⁶) multiplication, polynomial product of
`x·v² + y·v + z` representatives reduced by `v³ = ξ`. -/
def gfP6.Mul (a b : gfP6 K) : gfP6 K :=
  ⟨a.x * b.z + a.y * b.y + a.z * b.x,
   a.y * b.z + a.z * b.y + xiK K * (a.x * b.x),
   a.z * b.z + xiK K * (a.x * b.y + a.y * b.x)⟩

/-- Modelled from the spec: multiplication by the degree-12 non-residue
τ = v, i.e. `(x·v² + y·v + z)·v = y·v² + z·v + ξ·x`. -/
def gfP6.MulTau (a : gfP6 K) : gfP6 K := ⟨a.y, a.z, xiK K * a.x⟩

/-- Modelled from the spec: multiplication of a GF(p⁶) element by a bare
GF(p²) scalar, coordinatewise. -/
def gfP6.MulScalar (a : gfP6 K) (b : K) : gfP6 K := ⟨a.x * b, a.y * b, a.z * b⟩

/-- Modelled from the spec: the GF(p⁶) zero element. -/
def gfP6.SetZero : gfP6 K := ⟨0, 0, 0⟩

/-- Modelled from the spec: the GF(p⁶) one element. -/
def gfP6.SetOne : gfP6 K := ⟨0, 0, 1⟩

/-- Modelled from the spec: GF(p⁶) squaring, which the spec requires to be
bit-compatible with self-multiplication. -/
def gfP6.Square (a : gfP6 K) : gfP6 K := a.Mul a

lemma gfP6.Add_assoc6 (a b c : gfP6 K) : (a.Add b).Add c = a.Add (b.Add c) := by
  apply gfP6.ext <;> simp [gfP6.Add] <;> ring

lemma gfP6.zero_Add6 (a : gfP6 K) : gfP6.SetZero.Add a = a := by
  apply gfP6.ext <;> simp [gfP6.Add, gfP6.SetZero]

lemma gfP6.Add_zero6 (a : gfP6 K) : a.Add gfP6.SetZero = a := by
  apply gfP6.ext <;> simp [gfP6.Add, gfP6.SetZero]

lemma gfP6.Add_comm6 (a b : gfP6 K) : a.Add b = b.Add a := by
  apply gfP6.ext <;> simp [gfP6.Add] <;> ring

lemma gfP6.Neg_Add_cancel6 (a : gfP6 K) : a.Neg.Add a = gfP6.SetZero := by
  apply gfP6.ext <;> simp [gfP6.Add, gfP6.Neg, gfP6.SetZero]

lemma gfP6.Sub_eq_Add_Neg6 (a b : gfP6 K) : a.Sub b = a.Add b.Neg := by
  apply gfP6.ext <;> simp [gfP6.Add, gfP6.Neg, gfP6.Sub] <;> ring

lemma gfP6.Mul_assoc6 (a b c : gfP6 K) : (a.Mul b).Mul c = a.Mul (b.Mul c) := by
  apply gfP6.ext <;> simp [gfP6.Mul] <;> ring

lemma gfP6.one_Mul6 (a : gfP6 K) : gfP6.SetOne.Mul a = a := by
  apply gfP6.ext <;> simp [gfP6.Mul, gfP6.SetOne]

lemma gfP6.Mul_one6 (a : gfP6 K) : a.Mul gfP6.SetOne = a := by
  apply gfP6.ext <;> simp [gfP6.Mul, gfP6.SetOne]

lemma gfP6.Mul_comm6 (a b : gfP6 K) : a.Mul b = b.Mul a := by
  apply gfP6.ext <;> simp [gfP6.Mul] <;> ring

lemma gfP6.Mul_Add6 (a b c : gfP6 K) : a.Mul (b.Add c) = (a.Mul b).Add (a.Mul c) := by
  apply gfP6.ext <;> simp [gfP6.Mul, gfP6.Add] <;> ring

lemma gfP6.Add_Mul6 (a b c : gfP6 K) : (a.Add b).Mul c = (a.Mul c).Add (b.Mul c) := by
  apply gfP6.ext <;> simp [gfP6.Mul, gfP6.Add] <;> ring

lemma gfP6.zero_Mul6 (a : gfP6 K) : gfP6.SetZero.Mul a = gfP6.SetZero := by
  apply gfP6.ext <;> simp [gfP6.Mul, gfP6.SetZero]

lemma gfP6.Mul_zero6 (a : gfP6 K) : a.Mul gfP6.SetZero = gfP6.SetZero := by
  apply gfP6.ext <;> simp [gfP6.Mul, gfP6.SetZero]

instance : Zero (gfP6 K) := ⟨gfP6.SetZero⟩

instance : One (gfP6 K) := ⟨gfP6.SetOne⟩

instance : Add (gfP6 K) := ⟨gfP6.Add⟩

instance : Neg (gfP6 K) := ⟨gfP6.Neg⟩

instance : Sub (gfP6 K) := ⟨gfP6.Sub⟩

instance : Mul (gfP6 K) := ⟨gfP6.Mul⟩

instance : CommRing (gfP6 K) where
  nsmul := nsmulRec
  zsmul := zsmulRec
  add_assoc := gfP6.Add_assoc6
  zero_add := gfP6.zero_Add6
  add_zero := gfP6.Add_zero6
  add_comm := gfP6.Add_comm6
  neg_add_cancel := gfP6.Neg_Add_cancel6
  sub_eq_add_neg := gfP6.Sub_eq_Add_Neg6
  mul_assoc := gfP6.Mul_assoc6
  one_mul := gfP6.one_Mul6
  mul_one := gfP6.Mul_one6
  mul_comm := gfP6.Mul_comm6
  left_distrib := gfP6.Mul_Add6
  right_distrib := gfP6.Add_Mul6
  zero_mul := gfP6.zero_Mul6
  mul_zero := gfP6.Mul_zero6

lemma gfP6.add_def6 (a b : gfP6 K) : a + b = a.Add b := rfl

lemma gfP6.sub_def6 (a b : gfP6 K) : a - b = a.Sub b := rfl

lemma gfP6.neg_def6 (a : gfP6 K) : -a = a.Neg := rfl

lemma gfP6.mul_def6 (a b : gfP6 K) : a * b = a.Mul b := rfl

lemma gfP6.zero_def6 : (0 : gfP6 K) = gfP6.SetZero := rfl

lemma gfP6.one_def6 : (1 : gfP6 K) = gfP6.SetOne := rfl

lemma gfP6.mulTau_eq (a : gfP6 K) : a.MulTau = (⟨0, 1, 0⟩ : gfP6 K) * a := by
  apply gfP6.ext <;> simp [gfP6.mul_def6, gfP6.Mul, gfP6.MulTau]

/-- Translated from the source: `Set` copies its operand into the
destination; as a pure value operation it is the identity. -/
def gfP12.Set (a : gfP12 K) : gfP12 K := a

/-- Translated from the source: the GF(p¹²) zero element `0·ω + 0`. -/
def gfP12.SetZero : gfP12 K := ⟨gfP6.SetZero, gfP6.SetZero⟩

/-- Translated from the source: the GF(p¹²) one element `0·ω + 1`. -/
def gfP12.SetOne : gfP12 K := ⟨gfP6.SetZero, gfP6.SetOne⟩

/-- Translated from the source: conjugation negates only the `x`
coordinate. -/
def gfP12.Conjugate (a : gfP12 K) : gfP12 K := ⟨a.x.Neg, a.y⟩

/-- Translated from the source: negation of both coordinates. -/
def gfP12.Neg (a : gfP12 K) : gfP12 K := ⟨a.x.Neg, a.y.Neg⟩

/-- Translated from the source: componentwise addition. -/
def gfP12.Add (a b : gfP12 K) : gfP12 K := ⟨a.x.Add b.x, a.y.Add b.y⟩

/-- Translated from the source: componentwise subtraction. -/
def gfP12.Sub (a b : gfP12 K) : gfP12 K := ⟨a.x.Sub b.x, a.y.Sub b.y⟩

/-- Translated from the source: GF(p¹²) multiplication,
`x = a.x·b.y + b.x·a.y`, `y = a.y·b.y + τ·(a.x·b.x)`. -/
def gfP12.Mul (a b : gfP12 K) : gfP12 K :=
  let tx := a.x.Mul b.y
  let t := b.x.Mul a.y
  let tx2 := tx.Add t
  let ty := a.y.Mul b.y
  let t2 := (a.x.Mul b.x).MulTau
  ⟨tx2, ty.Add t2⟩

/-- Translated from the source: multiplication of both coordinates by a
GF(p⁶) scalar. -/
def gfP12.MulScalar (a : gfP12 K) (b : gfP6 K) : gfP12 K :=
  ⟨a.x.Mul b, a.y.Mul b⟩

/-- Translated from the source: generic complex-method squaring. -/
def gfP12.Square (a : gfP12 K) : gfP12 K :=
  let v0 := a.x.Mul a.y
  let t := a.x.MulTau
  let t1 := a.y.Add t
  let ty := a.x.Add a.y
  let ty1 := (ty.Mul t1).Sub v0
  let t2 := v0.MulTau
  let ty2 := ty1.Sub t2
  ⟨v0.Add v0, ty2⟩

lemma gfP12.Add_assoc (a b c : gfP12 K) : (a.Add b).Add c = a.Add (b.Add c) := by
  apply gfP12.ext <;> apply gfP6.ext <;>
    simp [gfP12.Add, gfP6.Add] <;> ring

lemma gfP12.zero_Add (a : gfP12 K) : gfP12.SetZero.Add a = a := by
  apply gfP12.ext <;> apply gfP6.ext <;>
    simp [gfP12.Add, gfP12.SetZero, gfP6.Add, gfP6.SetZero]

lemma gfP12.Add_zero (a : gfP12 K) : a.Add gfP12.SetZero = a := by
  apply gfP12.ext <;> apply gfP6.ext <;>
    simp [gfP12.Add, gfP12.SetZero, gfP6.Add, gfP6.SetZero]

lemma gfP12.Add_comm (a b : gfP12 K) : a.Add b = b.Add a := by
  apply gfP12.ext <;> apply gfP6.ext <;>
    simp [gfP12.Add, gfP6.Add] <;> ring

lemma gfP12.Neg_Add_cancel (a : gfP12 K) : a.Neg.Add a = gfP12.SetZero := by
  apply gfP12.ext <;> apply gfP6.ext <;>
    simp [gfP12.Add, gfP12.Neg, gfP12.SetZero, gfP6.Add, gfP6.Neg, gfP6.SetZero]

lemma gfP12.Sub_eq_Add_Neg (a b : gfP12 K) : a.Sub b = a.Add b.Neg := by
  apply gfP12.ext <;> apply gfP6.ext <;>
    simp [gfP12.Add, gfP12.Neg, gfP12.Sub, gfP6.Add, gfP6.Neg, gfP6.Sub] <;> ring

lemma gfP12.Mul_assoc (a b c : gfP12 K) : (a.Mul b).Mul c = a.Mul (b.Mul c) := by
  apply gfP12.ext <;> apply gfP6.ext <;>
    simp [gfP12.Mul, gfP6.Mul, gfP6.Add, gfP6.MulTau] <;> ring

lemma gfP12.one_Mul (a : gfP12 K) : gfP12.SetOne.Mul a = a := by
  apply gfP12.ext <;> apply gfP6.ext <;>
    simp [gfP12.Mul, gfP12.SetOne, gfP6.Mul, gfP6.Add, gfP6.MulTau,
      gfP6.SetZero, gfP6.SetOne]

lemma gfP12.Mul_one (a : gfP12 K) : a.Mul gfP12.SetOne = a := by
  apply gfP12.ext <;> apply gfP6.ext <;>
    simp [gfP12.Mul, gfP12.SetOne, gfP6.Mul, gfP6.Add, gfP6.MulTau,
      gfP6.SetZero, gfP6.SetOne]

lemma gfP12.Mul_comm (a b : gfP12 K) : a.Mul b = b.Mul a := by
  apply gfP12.ext <;> apply gfP6.ext <;>
    simp [gfP12.Mul, gfP6.Mul, gfP6.Add, gfP6.MulTau] <;> ring

lemma gfP12.Mul_Add (a b c : gfP12 K) :
    a.Mul (b.Add c) = (a.Mul b).Add (a.Mul c) := by
  apply gfP12.ext <;> apply gfP6.ext <;>
    simp [gfP12.Mul, gfP12.Add, gfP6.Mul, gfP6.Add, gfP6.MulTau] <;> ring

lemma gfP12.Add_Mul (a b c : gfP12 K) :
    (a.Add b).Mul c = (a.Mul c).Add (b.Mul c) := by
  apply gfP12.ext <;> apply gfP6.ext <;>
    simp [gfP12.Mul, gfP12.Add, gfP6.Mul, gfP6.Add, gfP6.MulTau] <;> ring

lemma gfP12.zero_Mul (a : gfP12 K) : gfP12.SetZero.Mul a = gfP12.SetZero := by
  apply gfP12.ext <;> apply gfP6.ext <;>
    simp [gfP12.Mul, gfP12.SetZero, gfP6.Mul, gfP6.Add, gfP6.MulTau, gfP6.SetZero]

lemma gfP12.Mul_zero (a : gfP12 K) : a.Mul gfP12.SetZero = gfP12.SetZero := by
  apply gfP12.ext <;> apply gfP6.ext <;>
    simp [gfP12.Mul, gfP12.SetZero, gfP6.Mul, gfP6.Add, gfP6.MulTau, gfP6.SetZero]

instance : Zero (gfP12 K) := ⟨gfP12.SetZero⟩

instance : One (gfP12 K) := ⟨gfP12.SetOne⟩

instance : Add (gfP12 K) := ⟨gfP12.Add⟩

instance : Neg (gfP12 K) := ⟨gfP12.Neg⟩

instance : Sub (gfP12 K) := ⟨gfP12.Sub⟩

instance : Mul (gfP12 K) := ⟨gfP12.Mul⟩

instance : CommRing (gfP12 K) where
  nsmul := nsmulRec
  zsmul := zsmulRec
  add_assoc := gfP12.Add_assoc
  zero_add := gfP12.zero_Add
  add_zero := gfP12.Add_zero
  add_comm := gfP12.Add_comm
  neg_add_cancel := gfP12.Neg_Add_cancel
  sub_eq_add_neg := gfP12.Sub_eq_Add_Neg
  mul_assoc := gfP12.Mul_assoc
  one_mul := gfP12.one_Mul
  mul_one := gfP12.Mul_one
  mul_comm := gfP12.Mul_comm
  left_distrib := gfP12.Mul_Add
  right_distrib := gfP12.Add_Mul
  zero_mul := gfP12.zero_Mul
  mul_zero := gfP12.Mul_zero

lemma gfP12.add_def (a b : gfP12 K) : a + b = a.Add b := rfl

lemma gfP12.sub_def (a b : gfP12 K) : a - b = a.Sub b := rfl

lemma gfP12.neg_def (a : gfP12 K) : -a = a.Neg := rfl

lemma gfP12.mul_def (a b : gfP12 K) : a * b = a.Mul b := rfl

lemma gfP12.zero_def : (0 : gfP12 K) = gfP12.SetZero := rfl

lemma gfP12.one_def : (1 : gfP12 K) = gfP12.SetOne := rfl

/-- Translated from the source: implicit GF(p⁴) squaring used by the
Granger–Scott cyclotomic squaring.  For the GF(p⁴) element `x·u + y` with
`u² = ξ` it returns `(2xy, ξ·x² + y²)`; the external GF(p²) squaring is
modelled as self-multiplication and `MulXi` as multiplication by ξ. -/
def gfP4Square (x y : K) : K × K :=
  let t1 := x * x
  let t2 := y * y
  let rX := (x + y) * (x + y) - t1 - t2
  let rY := xiK K * t1 + t2
  (rX, rY)

/-- Translated from the source: Granger–Scott special squaring.  The three
`gfP4Square` calls, the ξ-twist-and-swap of the cross terms, the tripling
of each `t` value and the final `±2·coordinate` corrections follow the
statement order of the Go code. -/
def gfP12.SquareCyclo6 (a : gfP12 K) : gfP12 K :=
  let p1 := gfP4Square a.x.y a.y.z
  let t11 := p1.1
  let t00 := p1.2
  let p2 := gfP4Square a.y.x a.x.z
  let t12 := p2.1
  let t01 := p2.2
  let p3 := gfP4Square a.x.x a.y.y
  let t02 := p3.1
  let t10 := p3.2
  let f00s := xiK K * t02
  let t02a := t10
  let t10a := f00s
  let t00a := t00 + t00 + t00
  let t01a := t01 + t01 + t01
  let t02b := t02a + t02a + t02a
  let t10b := t10a + t10a + t10a
  let t11a := t11 + t11 + t11
  let t12a := t12 + t12 + t12
  let f00 := -(a.y.z + a.y.z) + t00a
  let f01 := -(a.y.y + a.y.y) + t01a
  let f02 := -(a.y.x + a.y.x) + t02b
  let f10 := a.x.z + a.x.z + t10b
  let f11 := a.x.y + a.x.y + t11a
  let f12 := a.x.x + a.x.x + t12a
  ⟨⟨f12, f11, f10⟩, ⟨f02, f01, f00⟩⟩

/-- The Granger–Scott adjugate of a GF(p¹²) element: writing
`a = g₀ + g₁·v + g₂·v²` over GF(p⁴) = GF(p²)[u]/(u² − ξ) (the decomposition
behind the source's `gfP4Square` helper), this is the adjugate element
`(g₀² − ξg₁g₂) + (ξg₂² − g₀g₁)·v + (g₁² − g₀g₂)·v²`, which satisfies
`a · gsAdj a = N(a)` with `N(a)` a GF(p⁴) scalar.  In the concrete pairing
field an invertible `a` satisfies `Conjugate a = gsAdj a` exactly when `a`
lies in the true cyclotomic subgroup `{a : a^(p⁴−p²+1) = 1}`: conjugation
is the p⁶-power map and the adjugate is `a^(p⁴)·a^(p⁸)`. -/
def gfP12.gsAdj (a : gfP12 K) : gfP12 K :=
  ⟨⟨2 * (a.x.z * a.y.x) - a.x.y * a.y.y - a.x.x * a.y.z,
    2 * (a.x.y * a.y.z) - a.x.z * a.y.y - xiK K * (a.x.x * a.y.x),
    2 * (xiK K * (a.x.x * a.y.y)) - a.x.z * a.y.z - xiK K * (a.x.y * a.y.x)⟩,
   ⟨a.y.y * a.y.y + xiK K * (a.x.x * a.x.x) - a.y.z * a.y.x - a.x.z * a.x.y,
    xiK K * (a.y.x * a.y.x) + a.x.z * a.x.z - a.y.z * a.y.y
      - xiK K * (a.x.y * a.x.x),
    a.y.z * a.y.z + xiK K * (a.x.y * a.x.y) - xiK K * (a.y.y * a.y.x)
      - xiK K * (a.x.z * a.x.x)⟩⟩

/-- Norm-1 membership as the spec defines the "cyclotomic subgroup":
`conjugate(a)·a = 1`. -/
def gfP12.IsNormOne (a : gfP12 K) : Prop :=
  (gfP12.Conjugate a).Mul a = gfP12.SetOne

/-- Membership in the true cyclotomic subgroup: norm 1 together with the
conjugate agreeing with the Granger–Scott adjugate (for the concrete
pairing field this conjunction says exactly `a^(p⁴−p²+1) = 1`). -/
def gfP12.IsCyclo (a : gfP12 K) : Prop :=
  gfP12.IsNormOne a ∧ gfP12.Conjugate a = gfP12.gsAdj a

instance (a : gfP12 K) [DecidableEq K] : Decidable (gfP12.IsNormOne a) := by
  unfold gfP12.IsNormOne; infer_instance

instance (a : gfP12 K) [DecidableEq K] : Decidable (gfP12.IsCyclo a) := by
  unfold gfP12.IsCyclo; exact instDecidableAnd

/-- The generic square is self-multiplication (the complex-squaring
identity holds over any coefficient ring). -/
lemma gfP12.square_eq (a : gfP12 K) : a.Square = a.Mul a := by
  apply gfP12.ext <;> apply gfP6.ext <;>
    simp [gfP12.Square, gfP12.Mul, gfP6.Mul, gfP6.Add, gfP6.Sub,
      gfP6.MulTau] <;> ring

/-- Unconditional coordinate identity: the cyclotomic squaring differs from
the generic squaring by twice the defect `gsAdj a − Conjugate a`. -/
lemma gfP12.sqc6_split (a : gfP12 K) :
    a.SquareCyclo6 =
      a.Square + (a.gsAdj - a.Conjugate) + (a.gsAdj - a.Conjugate) := by
  apply gfP12.ext <;> apply gfP6.ext <;>
    simp [gfP12.SquareCyclo6, gfP12.Square, gfP12.gsAdj, gfP12.Conjugate,
      gfP12.add_def, gfP12.sub_def, gfP12.Add, gfP12.Sub, gfP4Square,
      gfP12.Mul, gfP6.Mul, gfP6.Add, gfP6.Sub, gfP6.Neg, gfP6.MulTau] <;>
    ring

/-- On elements whose conjugate is the Granger–Scott adjugate, cyclotomic
squaring agrees with generic squaring. -/
lemma gfP12.sqc6_eq_square (a : gfP12 K) (h : a.Conjugate = a.gsAdj) :
    a.SquareCyclo6 = a.Square := by
  rw [gfP12.sqc6_split, h, sub_self, add_zero, add_zero]

/-- Modelled from the spec: multiplication of a GF(p⁶) element by a bare
base-field scalar (the base field embeds into the coefficient ring). -/
def gfP6.MulGFP (a : gfP6 K) (b : K) : gfP6 K := ⟨a.x * b, a.y * b, a.z * b⟩

/-- Translated from the source: inversion via the norm `y² − τ·x²`
(M. Scott, "Implementing cryptographic pairings", §3.2).  The external
GF(p⁶) inversion the source calls is passed as the parameter `inv6`. -/
def gfP12.Invert (inv6 : gfP6 K → gfP6 K) (a : gfP12 K) : gfP12 K :=
  let t1 := a.x.Square
  let t2 := a.y.Square
  let t1a := t2.Sub t1.MulTau
  let t2a := inv6 t1a
  gfP12.MulScalar ⟨a.x.Neg, a.y⟩ t2a

/-- Translated from the source: `(xω+y)^p = x^p·ω·ξ^((p−1)/6) + y^p`.  The
external GF(p⁶) p-power map and the GF(p²) constant `xiToPMinus1Over6` are
the parameters `phi` and `c`. -/
def gfP12.Frobenius (phi : gfP6 K → gfP6 K) (c : K) (a : gfP12 K) : gfP12 K :=
  ⟨(phi a.x).MulScalar c, phi a.y⟩

/-- Translated from the source: the p²-power Frobenius; the external GF(p⁶)
p²-power map and the base-field constant `xiToPSquaredMinus1Over6` are the
parameters `phi2` and `c2`. -/
def gfP12.FrobeniusP2 (phi2 : gfP6 K → gfP6 K) (c2 : K) (a : gfP12 K) : gfP12 K :=
  ⟨(phi2 a.x).MulGFP c2, phi2 a.y⟩

/-- Translated from the source: the p⁴-power Frobenius; parameters as for
`FrobeniusP2` with constant `xiToPSquaredMinus1Over3`. -/
def gfP12.FrobeniusP4 (phi4 : gfP6 K → gfP6 K) (c4 : K) (a : gfP12 K) : gfP12 K :=
  ⟨(phi4 a.x).MulGFP c4, phi4 a.y⟩

/-- Translated from the source: the square-and-multiply loop of `Exp`,
counting the remaining bit index down from `i`. -/
def gfP12.expLoop (a : gfP12 K) (power : ℕ) : ℕ → gfP12 K → gfP12 K
  | 0, sum => sum
  | i + 1, sum =>
      gfP12.expLoop a power i
        (let t := sum.Square
         if power.testBit i then t.Mul a else t.Set)

/-- Translated from the source: left-to-right square-and-multiply
exponentiation, iterating from bit `BitLen−1` down to bit 0 with the
accumulator initialized to one; the Go `big.Int` exponent is modelled by a
natural number whose bit length is `Nat.size`. -/
def gfP12.Exp (a : gfP12 K) (power : ℕ) : gfP12 K :=
  gfP12.Set (gfP12.expLoop a power power.size gfP12.SetOne)

/-- Translated from the source: the §4.9 addition chain computing `a^v`
for `v = 1868033` with cyclotomic squarings, in statement order. -/
def gfP12.powToVCyclo6 (a : gfP12 K) : gfP12 K :=
  let t0a := a.SquareCyclo6
  let t0b := t0a.SquareCyclo6
  let t0 := t0b.SquareCyclo6
  let t1a := t0.SquareCyclo6
  let t1b := t1a.SquareCyclo6
  let t1 := t1b.SquareCyclo6
  let t2a := t0.Conjugate
  let t2b := t2a.Mul a
  let t2c := t2b.Mul t1
  let t2d := t2c.SquareCyclo6
  let t2e := t2d.SquareCyclo6
  let t2f := t2e.SquareCyclo6
  let t2g := t2f.SquareCyclo6
  let t2h := t2g.SquareCyclo6
  let t2i := t2h.SquareCyclo6
  let t2j := t2i.SquareCyclo6
  let t2k := t2j.Mul a
  let t2l := t2k.SquareCyclo6
  let t2m := t2l.SquareCyclo6
  let t2n := t2m.SquareCyclo6
  let t2o := t2n.SquareCyclo6
  let t2p := t2o.SquareCyclo6
  let t2q := t2p.SquareCyclo6
  let t2r := t2q.SquareCyclo6
  let t2s := t2r.SquareCyclo6
  t2s.Mul a

/-- Translated from the source: the fixed-exponent power, three chained
applications of `powToVCyclo6`. -/
def gfP12.PowToUCyclo6 (a : gfP12 K) : gfP12 K :=
  a.powToVCyclo6.powToVCyclo6.powToVCyclo6

/-- Embedding of a GF(p⁶) element into GF(p¹²) as `0·ω + b`. -/
def gfP12.ofG6 (b : gfP6 K) : gfP12 K := ⟨gfP6.SetZero, b⟩

lemma gfP12.mulScalar_eq (a : gfP12 K) (b : gfP6 K) :
    a.MulScalar b = a.Mul (gfP12.ofG6 b) := by
  apply gfP12.ext <;> apply gfP6.ext <;>
    simp [gfP12.MulScalar, gfP12.Mul, gfP12.ofG6, gfP6.Mul, gfP6.Add,
      gfP6.MulTau, gfP6.SetZero] <;> ring

lemma gfP12.conj_mul (a b : gfP12 K) :
    (a * b).Conjugate = a.Conjugate * b.Conjugate := by
  apply gfP12.ext <;> apply gfP6.ext <;>
    simp [gfP12.Conjugate, gfP12.mul_def, gfP12.Mul, gfP6.Mul, gfP6.Add,
      gfP6.Neg, gfP6.MulTau] <;> ring

lemma gfP12.conj_one : gfP12.Conjugate (1 : gfP12 K) = 1 := by
  apply gfP12.ext <;> apply gfP6.ext <;>
    simp [gfP12.Conjugate, gfP12.one_def, gfP12.SetOne, gfP6.Neg,
      gfP6.SetZero, gfP6.SetOne]

lemma gfP12.conj_conj (a : gfP12 K) : a.Conjugate.Conjugate = a := by
  apply gfP12.ext <;> apply gfP6.ext <;>
    simp [gfP12.Conjugate, gfP6.Neg]

lemma gfP12.gsAdj_mul (a b : gfP12 K) :
    (a * b).gsAdj = a.gsAdj * b.gsAdj := by
  apply gfP12.ext <;> apply gfP6.ext <;>
    simp [gfP12.gsAdj, gfP12.mul_def, gfP12.Mul, gfP6.Mul, gfP6.Add,
      gfP6.MulTau] <;> ring

lemma gfP12.gsAdj_one : gfP12.gsAdj (1 : gfP12 K) = 1 := by
  apply gfP12.ext <;> apply gfP6.ext <;>
    simp [gfP12.gsAdj, gfP12.one_def, gfP12.SetOne, gfP6.SetZero, gfP6.SetOne]

lemma gfP12.conj_mul_self (a : gfP12 K) :
    a.Conjugate * a = gfP12.ofG6 (a.y.Square.Sub a.x.Square.MulTau) := by
  apply gfP12.ext <;> apply gfP6.ext <;>
    simp [gfP12.Conjugate, gfP12.ofG6, gfP12.mul_def, gfP12.Mul, gfP6.Mul,
      gfP6.Add, gfP6.Sub, gfP6.Neg, gfP6.MulTau, gfP6.Square, gfP6.SetZero] <;>
    ring

lemma gfP12.ofG6_mul (m n : gfP6 K) :
    gfP12.ofG6 m * gfP12.ofG6 n = gfP12.ofG6 (m.Mul n) := by
  apply gfP12.ext <;> apply gfP6.ext <;>
    simp [gfP12.ofG6, gfP12.mul_def, gfP12.Mul, gfP6.Mul, gfP6.Add,
      gfP6.MulTau, gfP6.SetZero] <;> ring

lemma gfP12.ofG6_one : gfP12.ofG6 (gfP6.SetOne : gfP6 K) = 1 := rfl

lemma gfP12.isNormOne_iff (a : gfP12 K) :
    a.IsNormOne ↔ a.Conjugate * a = 1 := Iff.rfl

lemma gfP12.isCyclo_one : (1 : gfP12 K).IsCyclo := by
  constructor
  · rw [gfP12.isNormOne_iff, gfP12.conj_one, mul_one]
  · rw [gfP12.conj_one, gfP12.gsAdj_one]

lemma gfP12.isCyclo_mul {a b : gfP12 K} (ha : a.IsCyclo) (hb : b.IsCyclo) :
    (a * b).IsCyclo := by
  have haN : a.Conjugate * a = 1 := ha.1
  have hbN : b.Conjugate * b = 1 := hb.1
  constructor
  · rw [gfP12.isNormOne_iff, gfP12.conj_mul]
    calc a.Conjugate * b.Conjugate * (a * b)
        = (a.Conjugate * a) * (b.Conjugate * b) := by ring
      _ = 1 := by rw [haN, hbN, mul_one]
  · rw [gfP12.conj_mul, ha.2, hb.2, gfP12.gsAdj_mul]

lemma gfP12.isCyclo_conj {a : gfP12 K} (ha : a.IsCyclo) :
    a.Conjugate.IsCyclo := by
  have haN : a.Conjugate * a = 1 := ha.1
  constructor
  · rw [gfP12.isNormOne_iff, gfP12.conj_conj, mul_comm]
    exact haN
  · rw [gfP12.conj_conj]
    have h1 : gfP12.gsAdj a.Conjugate * gfP12.gsAdj a = 1 := by
      rw [← gfP12.gsAdj_mul, haN, gfP12.gsAdj_one]
    have h2 : gfP12.gsAdj a.Conjugate * a.Conjugate = 1 := by
      rw [← ha.2] at h1; exact h1
    calc a = (gfP12.gsAdj a.Conjugate * a.Conjugate) * a := by
            rw [h2, one_mul]
      _ = gfP12.gsAdj a.Conjugate * (a.Conjugate * a) := by ring
      _ = gfP12.gsAdj a.Conjugate := by rw [haN, mul_one]

lemma gfP12.isCyclo_pow {a : gfP12 K} (ha : a.IsCyclo) :
    ∀ n : ℕ, (a ^ n).IsCyclo
  | 0 => by rw [pow_zero]; exact gfP12.isCyclo_one
  | n + 1 => by
      rw [pow_succ]
      exact gfP12.isCyclo_mul (gfP12.isCyclo_pow ha n) ha

lemma gfP12.sqc6_eq_sq {a : gfP12 K} (h : a.IsCyclo) :
    a.SquareCyclo6 = a ^ 2 := by
  rw [gfP12.sqc6_eq_square a h.2, gfP12.square_eq, ← gfP12.mul_def, sq]

lemma gfP12.sqc6_pow {a : gfP12 K} (h : a.IsCyclo) (n m : ℕ)
    (hm : m = 2 * n) : (a ^ n).SquareCyclo6 = a ^ m := by
  rw [gfP12.sqc6_eq_sq (gfP12.isCyclo_pow h n), ← pow_mul, hm, Nat.mul_comm]

lemma gfP12.expLoop_eq (a : gfP12 K) (p : ℕ) :
    ∀ (i : ℕ) (s : gfP12 K),
      gfP12.expLoop a p i s = s ^ (2 ^ i) * a ^ (p % 2 ^ i) := by
  intro i
  induction i with
  | zero => intro s; simp [gfP12.expLoop, Nat.mod_one]
  | succ i ih =>
      intro s
      rw [gfP12.expLoop, ih]
      have hsq : gfP12.Square s = s * s := by
        rw [gfP12.square_eq, ← gfP12.mul_def]
      have h2 : (2 : ℕ) ^ (i + 1) = 2 ^ i + 2 ^ i := by
        rw [pow_succ, Nat.mul_two]
      have ht := Nat.testBit_to_div_mod (i := i) (x := p)
      cases hb : p.testBit i
      · have hd : p / 2 ^ i % 2 = 0 := by
          rw [hb] at ht
          rcases Nat.mod_two_eq_zero_or_one (p / 2 ^ i) with h0 | h1
          · exact h0
          · exact absurd (by simp [h1] : decide (p / 2 ^ i % 2 = 1) = true)
              (by rw [← ht]; exact Bool.false_ne_true)
        have hmod : p % 2 ^ (i + 1) = p % 2 ^ i := by
          rw [Nat.mod_pow_succ, hd, mul_zero, add_zero]
        rw [if_neg Bool.false_ne_true]
        simp only [gfP12.Set]
        rw [hsq, hmod, h2, pow_add, mul_pow]
      · have hmod : p % 2 ^ (i + 1) = p % 2 ^ i + 2 ^ i := by
          rw [hb] at ht
          have hd : p / 2 ^ i % 2 = 1 := of_decide_eq_true ht.symm
          rw [Nat.mod_pow_succ, hd, mul_one]
        rw [if_pos rfl, hsq, ← gfP12.mul_def, hmod, h2, pow_add, pow_add,
          mul_pow]
        ring

lemma gfP12.exp_eq_pow (a : gfP12 K) (p : ℕ) : gfP12.Exp a p = a ^ p := by
  rw [gfP12.Exp, gfP12.Set, gfP12.expLoop_eq, ← gfP12.one_def, one_pow,
    one_mul, Nat.mod_eq_of_lt (Nat.lt_size_self p)]

lemma gfP12.powToV_eq {a : gfP12 K} (h : a.IsCyclo) :
    a.powToVCyclo6 = a ^ 1868033 := by
  have h1 : a.SquareCyclo6 = a ^ 2 := gfP12.sqc6_eq_sq h
  simp only [gfP12.powToVCyclo6]
  rw [h1,
    gfP12.sqc6_pow h 2 4 (by norm_num),
    gfP12.sqc6_pow h 4 8 (by norm_num),
    gfP12.sqc6_pow h 8 16 (by norm_num),
    gfP12.sqc6_pow h 16 32 (by norm_num),
    gfP12.sqc6_pow h 32 64 (by norm_num)]
  have hkey : ((gfP12.Conjugate (a ^ 8)).Mul a).Mul (a ^ 64) = a ^ 57 := by
    have hn : gfP12.Conjugate (a ^ 8) * a ^ 8 = 1 := (gfP12.isCyclo_pow h 8).1
    rw [← gfP12.mul_def, ← gfP12.mul_def]
    calc gfP12.Conjugate (a ^ 8) * a * a ^ 64
        = gfP12.Conjugate (a ^ 8) * a ^ 8 * a ^ 57 := by ring
      _ = a ^ 57 := by rw [hn, one_mul]
  rw [hkey,
    gfP12.sqc6_pow h 57 114 (by norm_num),
    gfP12.sqc6_pow h 114 228 (by norm_num),
    gfP12.sqc6_pow h 228 456 (by norm_num),
    gfP12.sqc6_pow h 456 912 (by norm_num),
    gfP12.sqc6_pow h 912 1824 (by norm_num),
    gfP12.sqc6_pow h 1824 3648 (by norm_num),
    gfP12.sqc6_pow h 3648 7296 (by norm_num)]
  have hm1 : (a ^ 7296).Mul a = a ^ 7297 := by
    rw [← gfP12.mul_def, ← pow_succ]
  rw [hm1,
    gfP12.sqc6_pow h 7297 14594 (by norm_num),
    gfP12.sqc6_pow h 14594 29188 (by norm_num),
    gfP12.sqc6_pow h 29188 58376 (by norm_num),
    gfP12.sqc6_pow h 58376 116752 (by norm_num),
    gfP12.sqc6_pow h 116752 233504 (by norm_num),
    gfP12.sqc6_pow h 233504 467008 (by norm_num),
    gfP12.sqc6_pow h 467008 934016 (by norm_num),
    gfP12.sqc6_pow h 934016 1868032 (by norm_num)]
  rw [← gfP12.mul_def, ← pow_succ]

lemma gfP12.powToU_eq {a : gfP12 K} (h : a.IsCyclo) :
    a.PowToUCyclo6 = a ^ 6518589491078791937 := by
  rw [gfP12.PowToUCyclo6, gfP12.powToV_eq h,
    gfP12.powToV_eq (gfP12.isCyclo_pow h 1868033),
    gfP12.powToV_eq (gfP12.isCyclo_pow (gfP12.isCyclo_pow h 1868033) 1868033),
    ← pow_mul, ← pow_mul]

lemma gfP6.mulScalar_mulScalar (m : gfP6 K) (s t : K) :
    (m.MulScalar s).MulScalar t = m.MulScalar (s * t) := by
  apply gfP6.ext <;> simp [gfP6.MulScalar] <;> ring

lemma gfP6.mulScalar_neg_one (m : gfP6 K) : m.MulScalar (-1) = m.Neg := by
  apply gfP6.ext <;> simp [gfP6.MulScalar, gfP6.Neg]

/-- The Frobenius computation: six applications equal conjugation, given
that the external GF(p⁶) p-power map `phi` twists scalars by the GF(p²)
p-power map `sigma`, has order dividing six, and the six Galois translates
of the twist constant multiply to −1 (all true of the concrete pairing
field's parameters). -/
lemma gfP12.frobenius_six (phi : gfP6 K → gfP6 K) (sigma : K → K) (c : K)
    (hscalar : ∀ (t : K) (m : gfP6 K),
      phi (m.MulScalar t) = (phi m).MulScalar (sigma t))
    (hsix : ∀ m : gfP6 K, phi (phi (phi (phi (phi (phi m))))) = m)
    (hprod : sigma (sigma (sigma (sigma (sigma c * c) * c) * c) * c) * c = -1)
    (a : gfP12 K) :
    gfP12.Frobenius phi c (gfP12.Frobenius phi c (gfP12.Frobenius phi c
      (gfP12.Frobenius phi c (gfP12.Frobenius phi c
        (gfP12.Frobenius phi c a))))) = gfP12.Conjugate a := by
  have hstep : ∀ (m : gfP6 K) (s : K) (n : gfP6 K),
      gfP12.Frobenius phi c ⟨m.MulScalar s, n⟩ =
        ⟨(phi m).MulScalar (sigma s * c), phi n⟩ := by
    intro m s n
    simp only [gfP12.Frobenius, hscalar, gfP6.mulScalar_mulScalar]
  have h1 : gfP12.Frobenius phi c a = ⟨(phi a.x).MulScalar c, phi a.y⟩ := rfl
  rw [h1, hstep, hstep, hstep, hstep, hstep, hsix, hsix, hprod,
    gfP6.mulScalar_neg_one]
  rfl

/-- On a norm-1 element the norm computed inside `Invert` is one, so
`Invert` degenerates to conjugation whenever the external GF(p⁶) inversion
fixes one. -/
lemma gfP12.invert_eq_conj (inv6 : gfP6 K → gfP6 K) (a : gfP12 K)
    (h : a.IsNormOne) (hone : inv6 gfP6.SetOne = gfP6.SetOne) :
    gfP12.Invert inv6 a = gfP12.Conjugate a := by
  have hnorm : a.y.Square.Sub a.x.Square.MulTau = gfP6.SetOne := by
    have h1 := congrArg gfP12.y (gfP12.conj_mul_self a)
    have h2 : gfP12.Conjugate a * a = gfP12.SetOne := h
    rw [h2] at h1
    exact h1.symm
  show gfP12.MulScalar ⟨a.x.Neg, a.y⟩
      (inv6 (a.y.Square.Sub a.x.Square.MulTau)) = _
  rw [hnorm, hone]
  apply gfP12.ext
  · exact gfP6.Mul_one6 _
  · exact gfP6.Mul_one6 _

instance : TowerParams Int := ⟨5⟩

instance : TowerParams (ZMod 7) := ⟨4⟩

instance : TowerParams (ZMod 13) := ⟨2⟩

/-- C3: for every GF(p¹²) element `a` (no precondition), the
two-multiplication complex squaring `Square a` equals the generic product
`Mul a a` coordinate for coordinate. -/
theorem C3_square_eq_mul {K : Type} [CommRing K] [TowerParams K]
    (a : gfP12 K) : gfP12.Square a = gfP12.Mul a a := by
  rw [gfP12.square_eq]

/-- C9: the undocumented `MulScalar a b` agrees with full multiplication by
the embedded sextic-subfield element `0·ω + b`. -/
theorem C9_mulScalar_eq_embedded_mul {K : Type} [CommRing K] [TowerParams K]
    (a : gfP12 K) (b : gfP6 K) :
    gfP12.MulScalar a b = gfP12.Mul a ⟨gfP6.SetZero, b⟩ := by
  rw [gfP12.mulScalar_eq]
  rfl

/-- C7: `Exp` is additive in non-negative exponents, `Exp a 0` is the one
element and `Exp a 1` is `a`. -/
theorem C7_exp_add {K : Type} [CommRing K] [TowerParams K]
    (a : gfP12 K) (m n : ℕ) :
    gfP12.Exp a (m + n) = gfP12.Mul (gfP12.Exp a m) (gfP12.Exp a n) ∧
    gfP12.Exp a 0 = gfP12.SetOne ∧ gfP12.Exp a 1 = a := by
  refine ⟨?_, ?_, ?_⟩
  · rw [gfP12.exp_eq_pow, gfP12.exp_eq_pow, gfP12.exp_eq_pow,
      ← gfP12.mul_def, pow_add]
  · rw [gfP12.exp_eq_pow, pow_zero, gfP12.one_def]
  · rw [gfP12.exp_eq_pow, pow_one]

/-- C4 counterexample: `a = −1` satisfies the spec's cyclotomic-subgroup
condition `conjugate(a)·a = 1`, yet `SquareCyclo6 a` is the scalar 5 while
`Square a = 1`; the same computation holds verbatim in the concrete pairing
field, where 5 ≠ 1 because p > 5. -/
theorem C4_counterexample :
    gfP12.IsNormOne (⟨⟨0, 0, 0⟩, ⟨0, 0, -1⟩⟩ : gfP12 Int) ∧
    gfP12.SquareCyclo6 (⟨⟨0, 0, 0⟩, ⟨0, 0, -1⟩⟩ : gfP12 Int) ≠
      gfP12.Square (⟨⟨0, 0, 0⟩, ⟨0, 0, -1⟩⟩ : gfP12 Int) := by
  constructor <;> decide

/-- C4 (amended): for `a` in the true cyclotomic subgroup — norm 1
together with the conjugate equal to the Granger–Scott adjugate (in the
pairing field: `a^(p⁴−p²+1) = 1`), rather than norm 1 alone — the
specialized squaring `SquareCyclo6 a` equals the generic `Square a`. -/
theorem C4_cyclosquare_eq_square {K : Type} [CommRing K] [TowerParams K]
    (a : gfP12 K) (hnorm : gfP12.IsNormOne a)
    (hadj : gfP12.Conjugate a = gfP12.gsAdj a) :
    gfP12.SquareCyclo6 a = gfP12.Square a :=
  gfP12.sqc6_eq_square a hadj

/-- C4 witness: a non-identity member of the true cyclotomic subgroup of
the ZMod 7 instantiation, on which the theorem applies. -/
theorem C4_witness :
    (gfP12.IsNormOne (⟨⟨0, 3, 0⟩, ⟨0, 0, 3⟩⟩ : gfP12 (ZMod 7)) ∧
      gfP12.Conjugate (⟨⟨0, 3, 0⟩, ⟨0, 0, 3⟩⟩ : gfP12 (ZMod 7)) =
        gfP12.gsAdj ⟨⟨0, 3, 0⟩, ⟨0, 0, 3⟩⟩) ∧
    gfP12.SquareCyclo6 (⟨⟨0, 3, 0⟩, ⟨0, 0, 3⟩⟩ : gfP12 (ZMod 7)) =
      gfP12.Square ⟨⟨0, 3, 0⟩, ⟨0, 0, 3⟩⟩ :=
  ⟨⟨by decide, by decide⟩,
    C4_cyclosquare_eq_square _ (by decide) (by decide)⟩

/-- C2 counterexample: `a = −1` is norm-1, but the addition chain sends it
to the zero element of the ZMod 13 instantiation while
`Exp (−1) 1868033 = −1` (odd exponent), so the claimed equality fails on
the spec's norm-1 version of the cyclotomic subgroup. -/
theorem C2_counterexample :
    gfP12.IsNormOne (⟨⟨0, 0, 0⟩, ⟨0, 0, -1⟩⟩ : gfP12 (ZMod 13)) ∧
    gfP12.powToVCyclo6 (⟨⟨0, 0, 0⟩, ⟨0, 0, -1⟩⟩ : gfP12 (ZMod 13)) ≠
      gfP12.Exp (⟨⟨0, 0, 0⟩, ⟨0, 0, -1⟩⟩ : gfP12 (ZMod 13)) 1868033 := by
  constructor
  · decide
  · have h2 : (⟨⟨0, 0, 0⟩, ⟨0, 0, -1⟩⟩ : gfP12 (ZMod 13)) = -1 := by decide
    rw [gfP12.exp_eq_pow, h2, Odd.neg_one_pow (Nat.odd_iff.mpr (by norm_num))]
    decide

/-- C2 (amended): for `a` in the true cyclotomic subgroup (norm 1 and
conjugate = Granger–Scott adjugate, not norm 1 alone), the §4.9 addition
chain `powToVCyclo6 a` equals `Exp a 1868033`. -/
theorem C2_powToV_eq_exp {K : Type} [CommRing K] [TowerParams K]
    (a : gfP12 K) (h : gfP12.IsCyclo a) :
    gfP12.powToVCyclo6 a = gfP12.Exp a 1868033 := by
  rw [gfP12.powToV_eq h, gfP12.exp_eq_pow]

/-- C2 witness: the theorem applied to a non-identity member of the true
cyclotomic subgroup of the ZMod 7 instantiation. -/
theorem C2_witness :
    gfP12.IsCyclo (⟨⟨0, 3, 0⟩, ⟨0, 0, 3⟩⟩ : gfP12 (ZMod 7)) ∧
    gfP12.powToVCyclo6 (⟨⟨0, 3, 0⟩, ⟨0, 0, 3⟩⟩ : gfP12 (ZMod 7)) =
      gfP12.Exp ⟨⟨0, 3, 0⟩, ⟨0, 0, 3⟩⟩ 1868033 :=
  ⟨by decide, C2_powToV_eq_exp _ (by decide)⟩

/-- C1 counterexample: `a = −1` is norm-1 yet `PowToUCyclo6 a` differs from
`Exp a 6521908213921992257`; moreover the spec's stated exponent is not
`1868033³` at all (`1868033³ = 6518589491078791937`). -/
theorem C1_counterexample :
    gfP12.IsNormOne (⟨⟨0, 0, 0⟩, ⟨0, 0, -1⟩⟩ : gfP12 (ZMod 13)) ∧
    gfP12.PowToUCyclo6 (⟨⟨0, 0, 0⟩, ⟨0, 0, -1⟩⟩ : gfP12 (ZMod 13)) ≠
      gfP12.Exp (⟨⟨0, 0, 0⟩, ⟨0, 0, -1⟩⟩ : gfP12 (ZMod 13))
        6521908213921992257 ∧
    (1868033 : ℕ) ^ 3 ≠ 6521908213921992257 := by
  refine ⟨by decide, ?_, by norm_num⟩
  have h2 : (⟨⟨0, 0, 0⟩, ⟨0, 0, -1⟩⟩ : gfP12 (ZMod 13)) = -1 := by decide
  rw [gfP12.exp_eq_pow, h2, Odd.neg_one_pow (Nat.odd_iff.mpr (by norm_num))]
  set_option maxRecDepth 40000 in decide

/-- C1 (amended): for `a` in the true cyclotomic subgroup (norm 1 and
conjugate = Granger–Scott adjugate), `PowToUCyclo6 a = Exp a u` for
`u = 1868033³ = 6518589491078791937`; the spec's stated value
6521908213921992257 is not `1868033³`. -/
theorem C1_powToU_eq_exp {K : Type} [CommRing K] [TowerParams K]
    (a : gfP12 K) (h : gfP12.IsCyclo a) :
    gfP12.PowToUCyclo6 a = gfP12.Exp a 6518589491078791937 ∧
    (1868033 : ℕ) ^ 3 = 6518589491078791937 := by
  refine ⟨?_, by norm_num⟩
  rw [gfP12.powToU_eq h, gfP12.exp_eq_pow]

/-- C1 witness: the theorem applied to a non-identity member of the true
cyclotomic subgroup of the ZMod 7 instantiation. -/
theorem C1_witness :
    gfP12.IsCyclo (⟨⟨0, 3, 0⟩, ⟨0, 0, 3⟩⟩ : gfP12 (ZMod 7)) ∧
    (gfP12.PowToUCyclo6 (⟨⟨0, 3, 0⟩, ⟨0, 0, 3⟩⟩ : gfP12 (ZMod 7)) =
        gfP12.Exp ⟨⟨0, 3, 0⟩, ⟨0, 0, 3⟩⟩ 6518589491078791937 ∧
      (1868033 : ℕ) ^ 3 = 6518589491078791937) :=
  ⟨by decide, C1_powToU_eq_exp _ (by decide)⟩

/-- C5: for `a ≠ 0`, `Mul (Invert a) a` is the one element, given that the
external GF(p⁶) inversion (spec-modelled parameter `inv6`) meets its
contract at the norm `y² − τ·x²` computed inside `Invert`. -/
theorem C5_invert_mul {K : Type} [CommRing K] [TowerParams K]
    (inv6 : gfP6 K → gfP6 K) (a : gfP12 K) (ha : a ≠ gfP12.SetZero)
    (hinv : (inv6 (a.y.Square.Sub a.x.Square.MulTau)).Mul
        (a.y.Square.Sub a.x.Square.MulTau) = gfP6.SetOne) :
    gfP12.Mul (gfP12.Invert inv6 a) a = gfP12.SetOne := by
  have hi : gfP12.Invert inv6 a =
      gfP12.Conjugate a *
        gfP12.ofG6 (inv6 (a.y.Square.Sub a.x.Square.MulTau)) := by
    rw [show gfP12.Invert inv6 a = gfP12.MulScalar ⟨a.x.Neg, a.y⟩
        (inv6 (a.y.Square.Sub a.x.Square.MulTau)) from rfl,
      gfP12.mulScalar_eq]
    rfl
  show gfP12.Invert inv6 a * a = (1 : gfP12 K)
  rw [hi]
  calc gfP12.Conjugate a *
        gfP12.ofG6 (inv6 (a.y.Square.Sub a.x.Square.MulTau)) * a
      = gfP12.ofG6 (inv6 (a.y.Square.Sub a.x.Square.MulTau)) *
          (gfP12.Conjugate a * a) := by ring
    _ = gfP12.ofG6 (inv6 (a.y.Square.Sub a.x.Square.MulTau)) *
          gfP12.ofG6 (a.y.Square.Sub a.x.Square.MulTau) := by
        rw [gfP12.conj_mul_self]
    _ = 1 := by rw [gfP12.ofG6_mul, hinv, gfP12.ofG6_one]

/-- C5 witness: the theorem applied at `a = −1` over the integer
instantiation, whose norm is one, with the external inversion taken as the
identity function (which meets the contract at the norm one). -/
theorem C5_witness :
    ((⟨⟨0, 0, 0⟩, ⟨0, 0, -1⟩⟩ : gfP12 Int) ≠ gfP12.SetZero ∧
      ((fun t : gfP6 Int => t)
          ((⟨⟨0, 0, 0⟩, ⟨0, 0, -1⟩⟩ : gfP12 Int).y.Square.Sub
            (⟨⟨0, 0, 0⟩, ⟨0, 0, -1⟩⟩ : gfP12 Int).x.Square.MulTau)).Mul
        ((⟨⟨0, 0, 0⟩, ⟨0, 0, -1⟩⟩ : gfP12 Int).y.Square.Sub
          (⟨⟨0, 0, 0⟩, ⟨0, 0, -1⟩⟩ : gfP12 Int).x.Square.MulTau) =
        gfP6.SetOne) ∧
    gfP12.Mul (gfP12.Invert (fun t : gfP6 Int => t)
        ⟨⟨0, 0, 0⟩, ⟨0, 0, -1⟩⟩) ⟨⟨0, 0, 0⟩, ⟨0, 0, -1⟩⟩ = gfP12.SetOne :=
  ⟨⟨by decide, by decide⟩, C5_invert_mul _ _ (by decide) (by decide)⟩

/-- C6 counterexample: an instantiation whose external Frobenius data
satisfies every property the spec states (the p-power map twists scalars,
has order dividing six, and the product of the six Galois translates of the
twist constant is −1), on which six applications of `Frobenius` move the
element `ω·v²` to `−ω·v²` rather than back to itself. -/
theorem C6_counterexample :
    (∀ (t : ZMod 13) (m : gfP6 (ZMod 13)),
        (fun s : gfP6 (ZMod 13) => s) (m.MulScalar t) =
          ((fun s : gfP6 (ZMod 13) => s) m).MulScalar ((fun s : ZMod 13 => s) t)) ∧
    (∀ m : gfP6 (ZMod 13),
        (fun s : gfP6 (ZMod 13) => s) ((fun s : gfP6 (ZMod 13) => s)
          ((fun s : gfP6 (ZMod 13) => s) ((fun s : gfP6 (ZMod 13) => s)
            ((fun s : gfP6 (ZMod 13) => s) ((fun s : gfP6 (ZMod 13) => s) m))))) = m) ∧
    (fun s : ZMod 13 => s) ((fun s : ZMod 13 => s) ((fun s : ZMod 13 => s)
        ((fun s : ZMod 13 => s) ((fun s : ZMod 13 => s) (2 : ZMod 13) * 2) * 2) * 2) * 2) * 2
      = -1 ∧
    gfP12.Frobenius (fun s : gfP6 (ZMod 13) => s) 2
        (gfP12.Frobenius (fun s => s) 2 (gfP12.Frobenius (fun s => s) 2
          (gfP12.Frobenius (fun s => s) 2 (gfP12.Frobenius (fun s => s) 2
            (gfP12.Frobenius (fun s => s) 2
              (⟨⟨1, 0, 0⟩, ⟨0, 0, 0⟩⟩ : gfP12 (ZMod 13))))))) ≠
      (⟨⟨1, 0, 0⟩, ⟨0, 0, 0⟩⟩ : gfP12 (ZMod 13)) :=
  ⟨fun _ _ => rfl, fun _ => rfl, by decide, by decide⟩

/-- C6 (amended): six applications of `Frobenius` return `Conjugate a`
(and hence twelve applications return `a`), not `a` itself: the
hypotheses say that the external GF(p⁶) p-power map `phi` twists GF(p²)
scalars through the map `sigma`, that `phi` has order dividing six, and
that the six Galois translates of the twist constant multiply to −1 — all
true of the concrete pairing field. -/
theorem C6_frobenius_six_conj {K : Type} [CommRing K] [TowerParams K]
    (phi : gfP6 K → gfP6 K) (sigma : K → K) (c : K)
    (hscalar : ∀ (t : K) (m : gfP6 K),
      phi (m.MulScalar t) = (phi m).MulScalar (sigma t))
    (hsix : ∀ m : gfP6 K, phi (phi (phi (phi (phi (phi m))))) = m)
    (hprod : sigma (sigma (sigma (sigma (sigma c * c) * c) * c) * c) * c = -1)
    (a : gfP12 K) :
    gfP12.Frobenius phi c (gfP12.Frobenius phi c (gfP12.Frobenius phi c
        (gfP12.Frobenius phi c (gfP12.Frobenius phi c
          (gfP12.Frobenius phi c a))))) = gfP12.Conjugate a ∧
    gfP12.Frobenius phi c (gfP12.Frobenius phi c (gfP12.Frobenius phi c
        (gfP12.Frobenius phi c (gfP12.Frobenius phi c (gfP12.Frobenius phi c
          (gfP12.Frobenius phi c (gfP12.Frobenius phi c (gfP12.Frobenius phi c
            (gfP12.Frobenius phi c (gfP12.Frobenius phi c
              (gfP12.Frobenius phi c a))))))))))) = a := by
  have h6 := gfP12.frobenius_six phi sigma c hscalar hsix hprod
  refine ⟨h6 a, ?_⟩
  rw [h6 a, h6 (gfP12.Conjugate a), gfP12.conj_conj]

/-- C6 witness: the amended theorem applied at the ZMod 13 instantiation
with the identity p-power maps and twist constant 2 (2⁶ = −1 mod 13). -/
theorem C6_witness :
    ((∀ (t : ZMod 13) (m : gfP6 (ZMod 13)),
        (fun s : gfP6 (ZMod 13) => s) (m.MulScalar t) =
          ((fun s : gfP6 (ZMod 13) => s) m).MulScalar ((fun s : ZMod 13 => s) t)) ∧
      (∀ m : gfP6 (ZMod 13),
          (fun s : gfP6 (ZMod 13) => s) ((fun s : gfP6 (ZMod 13) => s)
            ((fun s : gfP6 (ZMod 13) => s) ((fun s : gfP6 (ZMod 13) => s)
              ((fun s : gfP6 (ZMod 13) => s)
                ((fun s : gfP6 (ZMod 13) => s) m))))) = m) ∧
      (fun s : ZMod 13 => s) ((fun s : ZMod 13 => s) ((fun s : ZMod 13 => s)
          ((fun s : ZMod 13 => s) ((fun s : ZMod 13 => s) (2 : ZMod 13) * 2) * 2) * 2)
            * 2) * 2 = -1) ∧
    gfP12.Frobenius (fun s : gfP6 (ZMod 13) => s) 2
        (gfP12.Frobenius (fun s => s) 2 (gfP12.Frobenius (fun s => s) 2
          (gfP12.Frobenius (fun s => s) 2 (gfP12.Frobenius (fun s => s) 2
            (gfP12.Frobenius (fun s => s) 2
              (⟨⟨1, 0, 0⟩, ⟨2, 3, 4⟩⟩ : gfP12 (ZMod 13))))))) =
      gfP12.Conjugate ⟨⟨1, 0, 0⟩, ⟨2, 3, 4⟩⟩ :=
  ⟨⟨fun _ _ => rfl, fun _ => rfl, by decide⟩,
    (C6_frobenius_six_conj _ _ _ (fun _ _ => rfl) (fun _ => rfl)
      (by decide) _).1⟩

/-- C10 counterexample: norm-1 alone is not the invariant the routines
preserve: `a = −1` is norm-1, but `SquareCyclo6 a` (the scalar 5) is not. -/
theorem C10_counterexample :
    gfP12.IsNormOne (⟨⟨0, 0, 0⟩, ⟨0, 0, -1⟩⟩ : gfP12 (ZMod 7)) ∧
    ¬ gfP12.IsNormOne
        (gfP12.SquareCyclo6 (⟨⟨0, 0, 0⟩, ⟨0, 0, -1⟩⟩ : gfP12 (ZMod 7))) := by
  constructor <;> decide

/-- C10 (amended): membership in the true cyclotomic subgroup (norm 1 and
conjugate = Granger–Scott adjugate, rather than norm 1 alone) is preserved
by every operation used inside the fixed-exponent routines, so the
precondition of `SquareCyclo6` holds at every step of the addition chain;
for `Invert` the external GF(p⁶) inversion is assumed to fix one. -/
theorem C10_cyclo_closure {K : Type} [CommRing K] [TowerParams K]
    (inv6 : gfP6 K → gfP6 K) (a b : gfP12 K)
    (ha : gfP12.IsCyclo a) (hb : gfP12.IsCyclo b)
    (hone : inv6 gfP6.SetOne = gfP6.SetOne) :
    gfP12.IsCyclo (gfP12.Mul a b) ∧
    gfP12.IsCyclo (gfP12.SquareCyclo6 a) ∧
    gfP12.IsCyclo (gfP12.Conjugate a) ∧
    gfP12.IsCyclo (gfP12.Invert inv6 a) ∧
    gfP12.IsCyclo (gfP12.powToVCyclo6 a) ∧
    gfP12.IsCyclo (gfP12.PowToUCyclo6 a) := by
  refine ⟨?_, ?_, ?_, ?_, ?_, ?_⟩
  · exact gfP12.isCyclo_mul ha hb
  · rw [gfP12.sqc6_eq_sq ha]
    exact gfP12.isCyclo_pow ha 2
  · exact gfP12.isCyclo_conj ha
  · rw [gfP12.invert_eq_conj inv6 a ha.1 hone]
    exact gfP12.isCyclo_conj ha
  · rw [gfP12.powToV_eq ha]
    exact gfP12.isCyclo_pow ha 1868033
  · rw [gfP12.powToU_eq ha]
    exact gfP12.isCyclo_pow ha 6518589491078791937

/-- C10 witness: the closure theorem applied to a non-identity member of
the true cyclotomic subgroup of the ZMod 7 instantiation, with the
external inversion taken as the identity function. -/
theorem C10_witness :
    (gfP12.IsCyclo (⟨⟨0, 3, 0⟩, ⟨0, 0, 3⟩⟩ : gfP12 (ZMod 7)) ∧
      (fun t : gfP6 (ZMod 7) => t) gfP6.SetOne = gfP6.SetOne) ∧
    gfP12.IsCyclo (gfP12.Mul (⟨⟨0, 3, 0⟩, ⟨0, 0, 3⟩⟩ : gfP12 (ZMod 7))
      ⟨⟨0, 3, 0⟩, ⟨0, 0, 3⟩⟩) :=
  ⟨⟨by decide, rfl⟩,
    (C10_cyclo_closure (fun t => t) _ _ (by decide) (by decide) rfl).1⟩

/-- `Set` run with the destination aliased to its operand: each field copy
reads the field it just wrote. -/
def gfP12.SetAliasA (a : gfP12 K) : gfP12 K :=
  let s1 := { a with x := a.x }
  { s1 with y := s1.y }

/-- `Neg` run with destination ≡ operand, in statement order. -/
def gfP12.NegAliasA (a : gfP12 K) : gfP12 K :=
  let s1 := { a with x := a.x.Neg }
  { s1 with y := s1.y.Neg }

/-- `Conjugate` run with destination ≡ operand. -/
def gfP12.ConjugateAliasA (a : gfP12 K) : gfP12 K :=
  let s1 := { a with x := a.x.Neg }
  { s1 with y := s1.y }

/-- `Add` run with destination ≡ first operand. -/
def gfP12.AddAliasA (a b : gfP12 K) : gfP12 K :=
  let s1 := { a with x := a.x.Add b.x }
  { s1 with y := s1.y.Add b.y }

/-- `Add` run with destination ≡ second operand. -/
def gfP12.AddAliasB (a b : gfP12 K) : gfP12 K :=
  let s1 := { b with x := a.x.Add b.x }
  { s1 with y := a.y.Add s1.y }

/-- `Sub` run with destination ≡ first operand. -/
def gfP12.SubAliasA (a b : gfP12 K) : gfP12 K :=
  let s1 := { a with x := a.x.Sub b.x }
  { s1 with y := s1.y.Sub b.y }

/-- `Sub` run with destination ≡ second operand. -/
def gfP12.SubAliasB (a b : gfP12 K) : gfP12 K :=
  let s1 := { b with x := a.x.Sub b.x }
  { s1 with y := a.y.Sub s1.y }

/-- `Mul` run with destination ≡ first operand: the three temporaries are
fully computed from the operands before either destination field is
written. -/
def gfP12.MulAliasA (a b : gfP12 K) : gfP12 K :=
  let tx := (a.x.Mul b.y).Add (b.x.Mul a.y)
  let ty := a.y.Mul b.y
  let t := (a.x.Mul b.x).MulTau
  let s1 := { a with x := tx }
  { s1 with y := ty.Add t }

/-- `Mul` run with destination ≡ second operand. -/
def gfP12.MulAliasB (a b : gfP12 K) : gfP12 K :=
  let tx := (a.x.Mul b.y).Add (b.x.Mul a.y)
  let ty := a.y.Mul b.y
  let t := (a.x.Mul b.x).MulTau
  let s1 := { b with x := tx }
  { s1 with y := ty.Add t }

/-- `MulScalar` run with destination ≡ first operand: the second field
multiply reads the not-yet-overwritten `y` field. -/
def gfP12.MulScalarAliasA (a : gfP12 K) (s : gfP6 K) : gfP12 K :=
  let s1 := { a with x := a.x.Mul s }
  { s1 with y := s1.y.Mul s }

/-- `Square` run with destination ≡ operand: all temporaries precede the
two destination writes, and the second write reads only a temporary. -/
def gfP12.SquareAliasA (a : gfP12 K) : gfP12 K :=
  let v0 := a.x.Mul a.y
  let t0 := a.x.MulTau
  let t1 := a.y.Add t0
  let ty := a.x.Add a.y
  let ty1 := (ty.Mul t1).Sub v0
  let t2 := v0.MulTau
  let ty2 := ty1.Sub t2
  let s1 := { a with x := v0.Add v0 }
  { s1 with y := ty2 }

/-- `SquareCyclo6` run with destination ≡ operand: the whole computation
lands in the fresh `tmp` value, which is copied into the destination
field-by-field at the end. -/
def gfP12.SquareCyclo6AliasA (a : gfP12 K) : gfP12 K :=
  let r := a.SquareCyclo6
  let s1 := { a with x := r.x }
  { s1 with y := r.y }

/-- `Frobenius` run with destination ≡ operand: the destination's `x` is
written, then `y` is computed from the still-intact `y` field, then `x` is
scaled in place. -/
def gfP12.FrobeniusAliasA (phi : gfP6 K → gfP6 K) (c : K) (a : gfP12 K) :
    gfP12 K :=
  let s1 := { a with x := phi a.x }
  let s2 := { s1 with y := phi s1.y }
  { s2 with x := s2.x.MulScalar c }

/-- `FrobeniusP2` run with destination ≡ operand, in statement order
(`x` mapped, `x` scaled, `y` mapped). -/
def gfP12.FrobeniusP2AliasA (phi2 : gfP6 K → gfP6 K) (c2 : K)
    (a : gfP12 K) : gfP12 K :=
  let s1 := { a with x := phi2 a.x }
  let s2 := { s1 with x := s1.x.MulGFP c2 }
  { s2 with y := phi2 s2.y }

/-- `FrobeniusP4` run with destination ≡ operand. -/
def gfP12.FrobeniusP4AliasA (phi4 : gfP6 K → gfP6 K) (c4 : K)
    (a : gfP12 K) : gfP12 K :=
  let s1 := { a with x := phi4 a.x }
  let s2 := { s1 with x := s1.x.MulGFP c4 }
  { s2 with y := phi4 s2.y }

/-- `Invert` run with destination ≡ operand: the norm temporaries precede
any write; the final self-aliased `MulScalar` reads each field it is about
to overwrite. -/
def gfP12.InvertAliasA (inv6 : gfP6 K → gfP6 K) (a : gfP12 K) : gfP12 K :=
  let t1 := a.x.Square
  let t2 := a.y.Square
  let t1a := t2.Sub t1.MulTau
  let t2a := inv6 t1a
  let s1 := { a with x := a.x.Neg }
  let s2 := { s1 with y := s1.y }
  let s3 := { s2 with x := s2.x.Mul t2a }
  { s3 with y := s3.y.Mul t2a }

/-- `Exp` run with destination ≡ base operand: the loop works entirely in
the `sum` and `t` temporaries, reading the untouched base each iteration,
and the destination is written only by the final copy. -/
def gfP12.ExpAliasA (a : gfP12 K) (power : ℕ) : gfP12 K :=
  let r := gfP12.expLoop a power power.size gfP12.SetOne
  let s1 := { a with x := r.x }
  { s1 with y := r.y }

/-- `powToVCyclo6` run with destination ≡ operand: the chain works in the
`t0`, `t1`, `t2` temporaries, and the final `e.Mul(t2, a)` is the
second-operand-aliased multiplication. -/
def gfP12.powToVCyclo6AliasA (a : gfP12 K) : gfP12 K :=
  let t0a := a.SquareCyclo6
  let t0b := t0a.SquareCyclo6
  let t0 := t0b.SquareCyclo6
  let t1a := t0.SquareCyclo6
  let t1b := t1a.SquareCyclo6
  let t1 := t1b.SquareCyclo6
  let t2a := t0.Conjugate
  let t2b := t2a.Mul a
  let t2c := t2b.Mul t1
  let t2d := t2c.SquareCyclo6
  let t2e := t2d.SquareCyclo6
  let t2f := t2e.SquareCyclo6
  let t2g := t2f.SquareCyclo6
  let t2h := t2g.SquareCyclo6
  let t2i := t2h.SquareCyclo6
  let t2j := t2i.SquareCyclo6
  let t2k := t2j.Mul a
  let t2l := t2k.SquareCyclo6
  let t2m := t2l.SquareCyclo6
  let t2n := t2m.SquareCyclo6
  let t2o := t2n.SquareCyclo6
  let t2p := t2o.SquareCyclo6
  let t2q := t2p.SquareCyclo6
  let t2r := t2q.SquareCyclo6
  let t2s := t2r.SquareCyclo6
  let tx := (t2s.x.Mul a.y).Add (a.x.Mul t2s.y)
  let ty := t2s.y.Mul a.y
  let t := (t2s.x.Mul a.x).MulTau
  let s1 := { a with x := tx }
  { s1 with y := ty.Add t }

/-- `PowToUCyclo6` run with destination ≡ operand: three self-aliased
`powToVCyclo6` calls in sequence. -/
def gfP12.PowToUCyclo6AliasA (a : gfP12 K) : gfP12 K :=
  gfP12.powToVCyclo6AliasA (gfP12.powToVCyclo6AliasA
    (gfP12.powToVCyclo6AliasA a))

/-- C8: every mutating GF(p¹²) operation, executed statement-by-statement
with its destination aliased to a source operand, produces the same value
as the unaliased operation. -/
theorem C8_alias_safety {K : Type} [CommRing K] [TowerParams K]
    (inv6 phi phi2 phi4 : gfP6 K → gfP6 K) (c c2 c4 : K)
    (a b : gfP12 K) (s : gfP6 K) (power : ℕ) :
    gfP12.SetAliasA a = gfP12.Set a ∧
    gfP12.NegAliasA a = gfP12.Neg a ∧
    gfP12.ConjugateAliasA a = gfP12.Conjugate a ∧
    gfP12.AddAliasA a b = gfP12.Add a b ∧
    gfP12.AddAliasB a b = gfP12.Add a b ∧
    gfP12.SubAliasA a b = gfP12.Sub a b ∧
    gfP12.SubAliasB a b = gfP12.Sub a b ∧
    gfP12.MulAliasA a b = gfP12.Mul a b ∧
    gfP12.MulAliasB a b = gfP12.Mul a b ∧
    gfP12.MulScalarAliasA a s = gfP12.MulScalar a s ∧
    gfP12.SquareAliasA a = gfP12.Square a ∧
    gfP12.SquareCyclo6AliasA a = gfP12.SquareCyclo6 a ∧
    gfP12.FrobeniusAliasA phi c a = gfP12.Frobenius phi c a ∧
    gfP12.FrobeniusP2AliasA phi2 c2 a = gfP12.FrobeniusP2 phi2 c2 a ∧
    gfP12.FrobeniusP4AliasA phi4 c4 a = gfP12.FrobeniusP4 phi4 c4 a ∧
    gfP12.InvertAliasA inv6 a = gfP12.Invert inv6 a ∧
    gfP12.ExpAliasA a power = gfP12.Exp a power ∧
    gfP12.powToVCyclo6AliasA a = gfP12.powToVCyclo6 a ∧
    gfP12.PowToUCyclo6AliasA a = gfP12.PowToUCyclo6 a :=
  ⟨rfl, rfl, rfl, rfl, rfl, rfl, rfl, rfl, rfl, rfl, rfl, rfl, rfl, rfl,
    rfl, rfl, rfl, rfl, rfl⟩
